import Mathlib

/-!
Verification of the `snoop` transaction validation-and-load pipeline
(`src/hasan_snoop/snoop_assignment/main.py`) against its specification.

The pipeline's data model, validator (`data_quality_checks`), the three
sink writers (`insert_into_transactions_table`, `insert_into_customer_table`,
`insert_into_error_log_table`), and the orchestration in `main` are embedded
as executable Lean definitions, translated from the Python/pandas/psycopg2
source.  The persistent PostgreSQL tables are modelled as in-memory lists of
rows; the single database transaction opened by `main` and committed once at
the end is modelled explicitly, including the PostgreSQL rule that once any
statement inside a transaction fails server-side, the transaction is aborted
and the final `COMMIT` keeps nothing.
-/

namespace Snoop

/-- One raw input record, as one row of the DataFrame loaded from JSON.
Identifiers are opaque 128-bit UUIDs, modelled as `Nat`; `transactionDate`
is the raw string, validated (and later parsed) by the pipeline itself. -/
structure TransactionRecord where
  customerId : Nat
  customerName : String
  transactionId : Nat
  transactionDate : String
  sourceDate : String
  merchantId : Int
  categoryId : Int
  currency : String
  amount : Int
  description : String
deriving DecidableEq, Repr

/-! ### Date parsing

`data_quality_checks` calls
`pd.to_datetime(df['transactionDate'], format='%Y-%m-%d', errors='coerce')`.
With `errors='coerce'` the call never raises: values that do not match the
format or are not real calendar dates become `NaT`.  Per strptime semantics,
`%Y` matches exactly four digits, `%m` and `%d` match one or two digits, the
separators are literal dashes, no unmatched text may remain, and the matched
numbers must form a valid calendar date (leap years included).  A parsed date
`y-m-d` is encoded as `y * 10000 + m * 100 + d`, which is strictly monotone
in chronological order, so PostgreSQL's `GREATEST` on `DATE` becomes
`Nat.max` on the encoding. -/

/-- Splits a character list on the literal dash, keeping empty components,
mirroring how the `%Y-%m-%d` pattern cuts the input at its dashes. -/
def splitDash : List Char → List (List Char)
  | [] => [[]]
  | c :: rest =>
    let r := splitDash rest
    if c = '-' then [] :: r
    else
      match r with
      | a :: as => (c :: a) :: as
      | [] => [[c]]

/-- Decimal digit test on a character. -/
def isDigitCh (c : Char) : Bool := 48 ≤ c.toNat && c.toNat ≤ 57

/-- Reads a nonempty all-digit character list as a natural number. -/
def digitsToNat : List Char → Option Nat
  | [] => none
  | cs =>
    if cs.all isDigitCh then
      some (cs.foldl (fun a c => 10 * a + (c.toNat - 48)) 0)
    else none

/-- Gregorian leap-year test. -/
def isLeapYear (y : Nat) : Bool :=
  y % 4 = 0 && (y % 100 ≠ 0 || y % 400 = 0)

/-- Number of days in month `m` of year `y`. -/
def daysInMonth (y m : Nat) : Nat :=
  if m = 2 then (if isLeapYear y then 29 else 28)
  else if m = 4 || m = 6 || m = 9 || m = 11 then 30
  else 31

/-- Parses a string as a `%Y-%m-%d` calendar date, returning the encoding
`y * 10000 + m * 100 + d` on success and `none` on any malformed or
non-calendar input (the `errors='coerce'` behaviour: never an exception). -/
def parseDate (s : String) : Option Nat :=
  match splitDash s.toList with
  | [ys, ms, ds] =>
    match digitsToNat ys, digitsToNat ms, digitsToNat ds with
    | some y, some m, some d =>
      if ys.length = 4 && ms.length ≤ 2 && ds.length ≤ 2 &&
          1 ≤ m && m ≤ 12 && 1 ≤ d && d ≤ daysInMonth y m then
        some (y * 10000 + m * 100 + d)
      else none
    | _, _, _ => none
  | _ => none

/-! ### Validator (`data_quality_checks`) -/

/-- The allow-list `allowable_currencies = ['EUR', 'GBP', 'USD']`. -/
def allowable_currencies : List String := ["EUR", "GBP", "USD"]

/-- Condition 1 of `data_quality_checks`:
`df['currency'].isin(allowable_currencies)` for one row. -/
def condition1 (r : TransactionRecord) : Bool :=
  allowable_currencies.contains r.currency

/-- Condition 2 of `data_quality_checks`:
`pd.to_datetime(df['transactionDate'], format='%Y-%m-%d', errors='coerce').notna()`
for one row. -/
def condition2 (r : TransactionRecord) : Bool :=
  (parseDate r.transactionDate).isSome

/-- Condition 3 of `data_quality_checks`, for one row `r` of the batch:
`df.groupby(['transactionId', 'customerId'])['transactionId'].transform('nunique') == 1`.
The group of `r` consists of the rows sharing its `(transactionId, customerId)`
pair, and `nunique` counts the distinct `transactionId` values in that group. -/
def condition3 (batch : List TransactionRecord) (r : TransactionRecord) : Bool :=
  (((batch.filter (fun s =>
      s.transactionId = r.transactionId ∧ s.customerId = r.customerId)).map
    (fun s => s.transactionId)).dedup).length = 1

/-- `final_condition = condition1 & condition2 & condition3` for one row. -/
def final_condition (batch : List TransactionRecord) (r : TransactionRecord) : Bool :=
  condition1 r && condition2 r && condition3 batch r

/-- `failed_condition = (~condition1) | (~condition2) | (~condition3)` for one row. -/
def failed_condition (batch : List TransactionRecord) (r : TransactionRecord) : Bool :=
  !condition1 r || !condition2 r || !condition3 batch r

/-- `data_quality_checks(df)`: returns `(filtered_df, failed_df)`, the rows
passing `final_condition` and the rows satisfying `failed_condition`, each in
input order (boolean-mask filtering preserves row order). -/
def data_quality_checks (batch : List TransactionRecord) :
    List TransactionRecord × List TransactionRecord :=
  (batch.filter (final_condition batch), batch.filter (failed_condition batch))

/-! ### Persistent tables

The three PostgreSQL tables created by `create_tables` are modelled as lists
of typed rows.  In `main`, the accepted rows of `filtered_df` have their
`transactionDate` converted with `pd.to_datetime` before loading; since
validation guaranteed the string parses, the loaded value is the `parseDate`
encoding. -/

/-- One row of `transactions_table`, primary key `(customerId, transactionId)`. -/
structure FactRow where
  customerId : Nat
  customerName : String
  transactionId : Nat
  transactionDate : Nat
  sourceDate : String
  merchantId : Int
  categoryId : Int
  currency : String
  amount : Int
  description : String
deriving DecidableEq, Repr

/-- One row of `customer_table`, primary key `customerId`. -/
structure CustomerRow where
  customerId : Nat
  customerName : String
  transactionDate : Nat
deriving DecidableEq, Repr

/-- One row of `error_log_table` (no key, append-only). -/
structure ErrorRow where
  customerId : Nat
  transactionId : Nat
  description : String
deriving DecidableEq, Repr

/-- The conversion applied to an accepted record before the INSERT statements:
ids and dates are parsed (`uuid.UUID`, `pd.to_datetime`); a record that
passed validation has a parsing `transactionDate`, so `getD 0` is never the
fallback on the rows actually loaded. -/
def toFact (r : TransactionRecord) : FactRow :=
  ⟨r.customerId, r.customerName, r.transactionId, (parseDate r.transactionDate).getD 0,
    r.sourceDate, r.merchantId, r.categoryId, r.currency, r.amount, r.description⟩

/-- The projection `filtered_df[['customerId', 'customerName', 'transactionDate']]`
used by `insert_into_customer_table`. -/
def toCustomerRow (r : TransactionRecord) : CustomerRow :=
  ⟨r.customerId, r.customerName, (parseDate r.transactionDate).getD 0⟩

/-- The projection `failed_df[['customerId', 'transactionId', 'description']]`
used by `insert_into_error_log_table`. -/
def toErrorRow (r : TransactionRecord) : ErrorRow :=
  ⟨r.customerId, r.transactionId, r.description⟩

/-- One INSERT of `insert_into_transactions_table`:
`INSERT ... ON CONFLICT (customerId, transactionId) DO UPDATE SET` every
non-key column to the incoming (`EXCLUDED`) value.  If a row with the key
exists it is overwritten entirely (same key, all other columns incoming),
otherwise the row is appended. -/
def upsertFact (t : List FactRow) (row : FactRow) : List FactRow :=
  if t.any (fun x => x.customerId = row.customerId ∧ x.transactionId = row.transactionId) then
    t.map (fun x =>
      if x.customerId = row.customerId ∧ x.transactionId = row.transactionId then row else x)
  else t ++ [row]

/-- `insert_into_transactions_table`: `execute_batch` runs the upsert
statement once per row of `filtered_df`, in row order. -/
def insert_into_transactions_table (t : List FactRow) (batch : List TransactionRecord) :
    List FactRow :=
  (batch.map toFact).foldl upsertFact t

/-- One INSERT of `insert_into_customer_table`:
`ON CONFLICT (customerId) DO UPDATE SET customerName = EXCLUDED.customerName,
transactionDate = GREATEST(EXCLUDED.transactionDate, customer_table.transactionDate)`. -/
def upsertCustomer (t : List CustomerRow) (row : CustomerRow) : List CustomerRow :=
  if t.any (fun x => x.customerId = row.customerId) then
    t.map (fun x =>
      if x.customerId = row.customerId then
        ⟨x.customerId, row.customerName, Nat.max row.transactionDate x.transactionDate⟩
      else x)
  else t ++ [row]

/-- `insert_into_customer_table`: `execute_batch` runs the rollup upsert once
per row of the projected `filtered_df`, in row order. -/
def insert_into_customer_table (t : List CustomerRow) (batch : List TransactionRecord) :
    List CustomerRow :=
  (batch.map toCustomerRow).foldl upsertCustomer t

/-- `insert_into_error_log_table`: plain append-only INSERT of the projected
`failed_df` rows, no conflict handling. -/
def insert_into_error_log_table (t : List ErrorRow) (batch : List TransactionRecord) :
    List ErrorRow :=
  t ++ batch.map toErrorRow

/-- The committed database state: the three tables. -/
structure DB where
  transactions : List FactRow
  customers : List CustomerRow
  errorLog : List ErrorRow
deriving DecidableEq, Repr

/-! ### Orchestration (`main`)

`main` opens one connection, and inside a single database transaction runs
`create_tables`, the validation, and the three sink writers, then calls
`conn.commit()` once.  Every one of those database functions wraps its work
in `try/except` that catches any exception and prints it, so `main` always
proceeds to the next step and always reaches the commit.

An operation's outcome distinguishes how it can fail:
* `serverFail` — a statement reached the server and failed (constraint
  violation, SQL error).  PostgreSQL then aborts the open transaction: every
  later statement fails with `current transaction is aborted`, and the final
  `COMMIT` of an aborted transaction is a rollback, so nothing of the run is
  kept.
* `clientFail` — the call raised before any statement reached the server
  (e.g. psycopg2 parameter-adaptation/type-coercion failure).  The open
  transaction is untouched, so earlier and later statements still commit. -/

inductive OpOutcome where
  | ok
  | serverFail
  | clientFail
deriving DecidableEq, Repr

/-- Which outcome each database operation of one run has. -/
structure RunEnv where
  schemaOutcome : OpOutcome
  txOutcome : OpOutcome
  custOutcome : OpOutcome
  errOutcome : OpOutcome
deriving DecidableEq, Repr

/-- State of the one open transaction: the writes applied so far (visible
only on commit) and whether the transaction has been aborted. -/
structure TxnState where
  pending : DB
  aborted : Bool
deriving DecidableEq, Repr

/-- Effect of one database operation on the open transaction.  Inside an
aborted transaction every statement fails (and the caller's `except` swallows
that too), so the state is unchanged. -/
def applyOp (o : OpOutcome) (f : DB → DB) (s : TxnState) : TxnState :=
  if s.aborted then s
  else
    match o with
    | OpOutcome.ok => ⟨f s.pending, false⟩
    | OpOutcome.serverFail => ⟨s.pending, true⟩
    | OpOutcome.clientFail => s

/-- The database calls `main` attempts, with the number of rows handed to
each sink.  Because every failure is caught and printed inside the called
function, `main` makes all four attempts unconditionally, whatever the
outcomes of the earlier ones. -/
inductive Event where
  | schemaAttempt
  | txAttempt (rows : Nat)
  | custAttempt (rows : Nat)
  | errAttempt (rows : Nat)
deriving DecidableEq, Repr

/-- One run of `main` on batch `batch` against committed state `db`, under
outcome environment `env`: `create_tables` (`CREATE TABLE IF NOT EXISTS`
leaves existing data unchanged), `data_quality_checks`, the three sink
writers in order, then `conn.commit()`.  Returns the committed state after
the run and the list of attempted database operations. -/
def runPipeline (db : DB) (env : RunEnv) (batch : List TransactionRecord) :
    DB × List Event :=
  let s0 : TxnState := ⟨db, false⟩
  let s1 := applyOp env.schemaOutcome id s0
  let filtered := (data_quality_checks batch).1
  let failed := (data_quality_checks batch).2
  let s2 := applyOp env.txOutcome
    (fun d => ⟨insert_into_transactions_table d.transactions filtered, d.customers, d.errorLog⟩) s1
  let s3 := applyOp env.custOutcome
    (fun d => ⟨d.transactions, insert_into_customer_table d.customers filtered, d.errorLog⟩) s2
  let s4 := applyOp env.errOutcome
    (fun d => ⟨d.transactions, d.customers, insert_into_error_log_table d.errorLog failed⟩) s3
  (if s4.aborted then db else s4.pending,
   [Event.schemaAttempt, Event.txAttempt filtered.length,
    Event.custAttempt filtered.length, Event.errAttempt failed.length])

/-! ### Lookup helpers used by the theorems -/

/-- The rows of `transactions_table` with primary key `(c, i)`. -/
def rowsWithKey (t : List FactRow) (c i : Nat) : List FactRow :=
  t.filter (fun x => x.customerId = c ∧ x.transactionId = i)

/-- The stored rollup `transactionDate` for customer `c` (first matching row). -/
def lookupCustomerDate (t : List CustomerRow) (c : Nat) : Option Nat :=
  (t.find? (fun x => x.customerId = c)).map (fun x => x.transactionDate)

/-- The last row of `rows`, in order, whose key is `(c, i)` — the row whose
values win when the rows are applied sequentially. -/
def lastWithKey (rows : List FactRow) (c i : Nat) : Option FactRow :=
  rows.foldl (fun acc x => if x.customerId = c ∧ x.transactionId = i then some x else acc) none

/-- `GREATEST` folded into an optional stored value: the value the rollup
column takes after merging one incoming date `d` into stored state `o`. -/
def omax (o : Option Nat) (d : Nat) : Nat :=
  match o with
  | some v => Nat.max d v
  | none => d

/-- One rollup merge step on the optional stored date. -/
def stepMax (o : Option Nat) (d : Nat) : Option Nat :=
  some (omax o d)

/-! ### Concrete sample data used by the closed theorems and witnesses -/

/-- Builds a record with fixed filler values for the fields the claims leave
unconstrained. -/
def mkRecord (cid : Nat) (name : String) (tid : Nat) (date cur : String) (amt : Int) :
    TransactionRecord :=
  ⟨cid, name, tid, date, "2023-11-20T09:30:00", 11, 22, cur, amt, "memo"⟩

/-- First of two records sharing key `(transactionId 5, customerId 7)`. -/
def recDupFirst : TransactionRecord := mkRecord 7 "Ann" 5 "2023-11-21" "EUR" 100

/-- Second record with key `(5, 7)`, differing from the first in name, date,
currency and amount. -/
def recDupSecond : TransactionRecord := mkRecord 7 "Anne B" 5 "2023-11-22" "USD" 999

/-- A record passing all three quality rules. -/
def recValid : TransactionRecord := mkRecord 1 "Bob" 2 "2023-11-21" "EUR" 100

/-- A record whose currency `CAD` is outside the allow-list. -/
def recBadCurrency : TransactionRecord := mkRecord 3 "Cyn" 4 "2023-12-05" "CAD" 55

/-- A record whose `transactionDate` is malformed (`21/11/2023`). -/
def recBadDate : TransactionRecord := mkRecord 6 "Dee" 8 "21/11/2023" "EUR" 10

/-- An accepted record for customer 1 under the name `Alice`. -/
def recNameA : TransactionRecord := mkRecord 1 "Alice" 10 "2023-01-01" "EUR" 5

/-- An accepted record for the same customer 1 under the name `Bob`. -/
def recNameB : TransactionRecord := mkRecord 1 "Bob" 11 "2023-06-01" "EUR" 6

/-- An accepted record for customer 42 dated 2023-06-01, older than the
stored rollup date used in the monotonicity witness. -/
def recOldDate : TransactionRecord := mkRecord 42 "Eve" 9 "2023-06-01" "GBP" 3

/-- The empty committed database. -/
def emptyDB : DB := ⟨[], [], []⟩

/-- A committed database whose rollup already holds date 2024-01-01 for
customer 42. -/
def dbWithRollup : DB := ⟨[], [⟨42, "Eve", 20240101⟩], []⟩

/-- Environment: every database operation succeeds. -/
def envAllOk : RunEnv := ⟨OpOutcome.ok, OpOutcome.ok, OpOutcome.ok, OpOutcome.ok⟩

/-- Environment: the transactions sink raises client-side (before reaching
the server); the other operations succeed. -/
def envTxClientFail : RunEnv := ⟨OpOutcome.ok, OpOutcome.clientFail, OpOutcome.ok, OpOutcome.ok⟩

/-- Environment: table creation fails with a database error; every later
statement then runs against the aborted transaction. -/
def envSchemaFail : RunEnv := ⟨OpOutcome.serverFail, OpOutcome.ok, OpOutcome.ok, OpOutcome.ok⟩

/-! ## Theorems -/

/-- A nonempty list all of whose elements equal `a` deduplicates to `[a]`. -/
lemma dedup_eq_singleton_of_all_eq {l : List Nat} {a : Nat} (hne : l ≠ [])
    (hall : ∀ x ∈ l, x = a) : l.dedup = [a] := by
  induction l with
  | nil => exact absurd rfl hne
  | cons x xs ih =>
    have hx : x = a := hall x (List.mem_cons_self x xs)
    subst hx
    cases xs with
    | nil => simp
    | cons y ys =>
      have hy : y = x := hall y (by simp)
      have hmem : x ∈ y :: ys := by simp [hy]
      rw [List.dedup_cons_of_mem hmem]
      exact ih (by simp) (fun z hz => hall z (List.mem_cons_of_mem x hz))

/-- The third quality check is vacuous: for every row of the batch, the only
`transactionId` in its `(transactionId, customerId)` group is its own, so the
`nunique` transform is 1 and `condition3` holds — duplicates are never
detected. -/
lemma condition3_eq_true {batch : List TransactionRecord} {r : TransactionRecord}
    (h : r ∈ batch) : condition3 batch r = true := by
  unfold condition3
  have hrmem : r ∈ batch.filter (fun s =>
      s.transactionId = r.transactionId ∧ s.customerId = r.customerId) :=
    List.mem_filter.mpr ⟨h, by simp⟩
  have hne : ((batch.filter (fun s =>
      s.transactionId = r.transactionId ∧ s.customerId = r.customerId)).map
        (fun s => s.transactionId)) ≠ [] := by
    intro hcontra
    rw [List.eq_nil_iff_forall_not_mem] at hcontra
    exact hcontra r.transactionId (List.mem_map.mpr ⟨r, hrmem, rfl⟩)
  have hall : ∀ x ∈ (batch.filter (fun s =>
      s.transactionId = r.transactionId ∧ s.customerId = r.customerId)).map
        (fun s => s.transactionId), x = r.transactionId := by
    intro x hx
    rcases List.mem_map.mp hx with ⟨s, hs, rfl⟩
    have := (List.mem_filter.mp hs).2
    simp only [decide_eq_true_eq] at this
    exact this.1
  rw [dedup_eq_singleton_of_all_eq hne hall]
  simp

/-- The failure mask is the boolean complement of the acceptance mask
(`(~c1) | (~c2) | (~c3) = ~(c1 & c2 & c3)`). -/
lemma failed_eq_not_final (batch : List TransactionRecord) (r : TransactionRecord) :
    failed_condition batch r = !final_condition batch r := by
  simp [failed_condition, final_condition, Bool.not_and]

/-- Filtering a list by a predicate and by its negation splits its length. -/
lemma length_filter_not_add {α : Type} (p : α → Bool) (l : List α) :
    (l.filter p).length + (l.filter (fun a => !p a)).length = l.length := by
  induction l with
  | nil => simp
  | cons a l ih =>
    cases h : p a <;> simp [List.filter_cons, h] <;> omega

/-- C1: the spec's duplicate rule says two records sharing
`(transactionId, customerId)` are ALL rejected, but the code's third check
(`groupby(['transactionId','customerId'])['transactionId'].transform('nunique') == 1`)
counts distinct `transactionId` values inside a group already keyed by
`transactionId`, which is always 1.  On two otherwise-valid records with the
same key `(5, 7)` and different other fields, `data_quality_checks` accepts
both and rejects neither. -/
theorem duplicate_key_records_all_accepted :
    recDupFirst.transactionId = recDupSecond.transactionId ∧
    recDupFirst.customerId = recDupSecond.customerId ∧
    recDupFirst ≠ recDupSecond ∧
    data_quality_checks [recDupFirst, recDupSecond] = ([recDupFirst, recDupSecond], []) := by
  decide

/-- C4: validation partitions the batch totally and disjointly — the lengths
of the accepted and rejected outputs sum to the batch length, and every
record of the batch lands in exactly one of the two outputs. -/
theorem partition_total_and_disjoint (batch : List TransactionRecord)
    (r : TransactionRecord) (h : r ∈ batch) :
    (data_quality_checks batch).1.length + (data_quality_checks batch).2.length = batch.length ∧
    (r ∈ (data_quality_checks batch).1 ∨ r ∈ (data_quality_checks batch).2) ∧
    ¬(r ∈ (data_quality_checks batch).1 ∧ r ∈ (data_quality_checks batch).2) := by
  have hfail : batch.filter (failed_condition batch) =
      batch.filter (fun x => !final_condition batch x) :=
    List.filter_congr (fun x _ => failed_eq_not_final batch x)
  unfold data_quality_checks
  refine ⟨?_, ?_, ?_⟩
  · rw [hfail]
    exact length_filter_not_add _ _
  · by_cases hf : final_condition batch r = true
    · exact Or.inl (List.mem_filter.mpr ⟨h, hf⟩)
    · refine Or.inr (List.mem_filter.mpr ⟨h, ?_⟩)
      rw [failed_eq_not_final]
      simp [Bool.eq_false_iff.mpr hf]
  · rintro ⟨ha, hb⟩
    have hfa := (List.mem_filter.mp ha).2
    have hfb := (List.mem_filter.mp hb).2
    rw [failed_eq_not_final] at hfb
    simp [hfa] at hfb

/-- C4 witness: the partition properties at a concrete two-record batch. -/
theorem partition_total_and_disjoint_witness :
    recValid ∈ [recValid, recBadCurrency] ∧
    ((data_quality_checks [recValid, recBadCurrency]).1.length +
        (data_quality_checks [recValid, recBadCurrency]).2.length =
      ([recValid, recBadCurrency] : List TransactionRecord).length ∧
    (recValid ∈ (data_quality_checks [recValid, recBadCurrency]).1 ∨
      recValid ∈ (data_quality_checks [recValid, recBadCurrency]).2) ∧
    ¬(recValid ∈ (data_quality_checks [recValid, recBadCurrency]).1 ∧
      recValid ∈ (data_quality_checks [recValid, recBadCurrency]).2)) :=
  ⟨by decide, partition_total_and_disjoint [recValid, recBadCurrency] recValid (by decide)⟩

/-- C6: a record whose currency is not in the allow-list `EUR, GBP, USD`
always lands in the rejected output and never in the accepted output,
whatever its other fields. -/
theorem invalid_currency_always_rejected (batch : List TransactionRecord)
    (r : TransactionRecord) (h : r ∈ batch) (hc : r.currency ∉ allowable_currencies) :
    r ∈ (data_quality_checks batch).2 ∧ r ∉ (data_quality_checks batch).1 := by
  have h1 : condition1 r = false := by
    simp [condition1, hc]
  constructor
  · exact List.mem_filter.mpr ⟨h, by simp [failed_condition, h1]⟩
  · intro hacc
    have := (List.mem_filter.mp hacc).2
    simp [final_condition, h1] at this

/-- C6 witness: the `CAD` record is rejected from a concrete batch. -/
theorem invalid_currency_always_rejected_witness :
    recBadCurrency ∈ [recValid, recBadCurrency] ∧
    recBadCurrency.currency ∉ allowable_currencies ∧
    (recBadCurrency ∈ (data_quality_checks [recValid, recBadCurrency]).2 ∧
      recBadCurrency ∉ (data_quality_checks [recValid, recBadCurrency]).1) :=
  ⟨by decide, by decide,
    invalid_currency_always_rejected [recValid, recBadCurrency] recBadCurrency
      (by decide) (by decide)⟩

/-- C7: date validation is a total predicate — a `transactionDate` that does
not parse in `%Y-%m-%d` form (the parser returns `none` instead of raising,
the `errors='coerce'` behaviour) makes `condition2` false and puts the
record in the rejected output, never in the accepted one. -/
theorem malformed_date_always_rejected (batch : List TransactionRecord)
    (r : TransactionRecord) (h : r ∈ batch) (hd : parseDate r.transactionDate = none) :
    condition2 r = false ∧
    r ∈ (data_quality_checks batch).2 ∧ r ∉ (data_quality_checks batch).1 := by
  have h2 : condition2 r = false := by
    simp [condition2, hd]
  refine ⟨h2, List.mem_filter.mpr ⟨h, by simp [failed_condition, h2]⟩, ?_⟩
  intro hacc
  have := (List.mem_filter.mp hacc).2
  simp [final_condition, h2] at this

/-- C7 witness: the record dated `21/11/2023` is rejected from a concrete
batch even though its currency is valid. -/
theorem malformed_date_always_rejected_witness :
    recBadDate ∈ [recValid, recBadDate] ∧
    parseDate recBadDate.transactionDate = none ∧
    (condition2 recBadDate = false ∧
      recBadDate ∈ (data_quality_checks [recValid, recBadDate]).2 ∧
      recBadDate ∉ (data_quality_checks [recValid, recBadDate]).1) :=
  ⟨by decide, by decide,
    malformed_date_always_rejected [recValid, recBadDate] recBadDate (by decide) (by decide)⟩

/-- Upserting a row makes its key's slice of the table exactly that row,
provided the table held at most one row for the key (the primary-key
invariant). -/
lemma rowsWithKey_upsertFact_self (t : List FactRow) (row : FactRow)
    (hwf : (rowsWithKey t row.customerId row.transactionId).length ≤ 1) :
    rowsWithKey (upsertFact t row) row.customerId row.transactionId = [row] := by
  unfold upsertFact rowsWithKey at *
  by_cases hany : t.any (fun x =>
      x.customerId = row.customerId ∧ x.transactionId = row.transactionId) = true
  · rw [if_pos hany, List.filter_map]
    have hpt : ∀ x ∈ t,
        ((fun x : FactRow =>
            decide (x.customerId = row.customerId ∧ x.transactionId = row.transactionId)) ∘
          (fun x : FactRow =>
            if x.customerId = row.customerId ∧ x.transactionId = row.transactionId
            then row else x)) x =
        (fun x : FactRow =>
          decide (x.customerId = row.customerId ∧ x.transactionId = row.transactionId)) x := by
      intro x _
      by_cases hx : x.customerId = row.customerId ∧ x.transactionId = row.transactionId
      · simp [hx]
      · simp only [Function.comp_apply, if_neg hx]
    rw [List.filter_congr hpt]
    rcases List.any_eq_true.mp hany with ⟨x₀, hx₀mem, hx₀p⟩
    have hnonempty : 0 < (t.filter (fun x =>
        x.customerId = row.customerId ∧ x.transactionId = row.transactionId)).length := by
      rw [List.length_pos]
      intro hnil
      rw [List.filter_eq_nil_iff] at hnil
      exact hnil x₀ hx₀mem hx₀p
    have hlen : (t.filter (fun x =>
        x.customerId = row.customerId ∧ x.transactionId = row.transactionId)).length = 1 :=
      Nat.le_antisymm hwf hnonempty
    rcases List.length_eq_one.mp hlen with ⟨a, ha⟩
    rw [ha]
    have hpa : a.customerId = row.customerId ∧ a.transactionId = row.transactionId := by
      have : a ∈ t.filter (fun x =>
          x.customerId = row.customerId ∧ x.transactionId = row.transactionId) := by
        rw [ha]; exact List.mem_cons_self a []
      simpa using (List.mem_filter.mp this).2
    simp [hpa]
  · rw [if_neg hany, List.filter_append]
    have hnil : t.filter (fun x =>
        x.customerId = row.customerId ∧ x.transactionId = row.transactionId) = [] := by
      rw [List.filter_eq_nil_iff]
      intro a hamem hap
      exact hany (List.any_eq_true.mpr ⟨a, hamem, hap⟩)
    rw [hnil]
    simp

/-- Upserting a row leaves every other key's slice of the table unchanged. -/
lemma rowsWithKey_upsertFact_other (t : List FactRow) (row : FactRow) (c i : Nat)
    (hne : ¬(row.customerId = c ∧ row.transactionId = i)) :
    rowsWithKey (upsertFact t row) c i = rowsWithKey t c i := by
  unfold upsertFact rowsWithKey
  by_cases hany : t.any (fun x =>
      x.customerId = row.customerId ∧ x.transactionId = row.transactionId) = true
  · rw [if_pos hany, List.filter_map]
    have hpt : ∀ x ∈ t,
        ((fun x : FactRow => decide (x.customerId = c ∧ x.transactionId = i)) ∘
          (fun x : FactRow =>
            if x.customerId = row.customerId ∧ x.transactionId = row.transactionId
            then row else x)) x =
        (fun x : FactRow => decide (x.customerId = c ∧ x.transactionId = i)) x := by
      intro x _
      by_cases hx : x.customerId = row.customerId ∧ x.transactionId = row.transactionId
      · have hxne : ¬(x.customerId = c ∧ x.transactionId = i) := by
          intro hcon
          exact hne ⟨hx.1 ▸ hcon.1, hx.2 ▸ hcon.2⟩
        simp only [Function.comp_apply, if_pos hx]
        rw [decide_eq_false hne, decide_eq_false hxne]
      · simp only [Function.comp_apply, if_neg hx]
    rw [List.filter_congr hpt]
    have hid : ∀ x ∈ t.filter (fun x : FactRow => decide (x.customerId = c ∧ x.transactionId = i)),
        (fun x : FactRow =>
          if x.customerId = row.customerId ∧ x.transactionId = row.transactionId
          then row else x) x = id x := by
      intro x hx
      have hpx : x.customerId = c ∧ x.transactionId = i := by
        simpa using (List.mem_filter.mp hx).2
      have hxne : ¬(x.customerId = row.customerId ∧ x.transactionId = row.transactionId) := by
        intro hcon
        exact hne ⟨hcon.1 ▸ hpx.1, hcon.2 ▸ hpx.2⟩
      simp [hxne]
    rw [List.map_congr_left hid, List.map_id]
  · rw [if_neg hany, List.filter_append]
    simp [hne]

/-- Unfolds the upsert in the key-present case. -/
lemma upsertFact_pos (t : List FactRow) (row : FactRow)
    (h : t.any (fun x =>
      x.customerId = row.customerId ∧ x.transactionId = row.transactionId) = true) :
    upsertFact t row = t.map (fun x =>
      if x.customerId = row.customerId ∧ x.transactionId = row.transactionId
      then row else x) := by
  unfold upsertFact
  rw [if_pos h]

/-- Unfolds the upsert in the key-absent case. -/
lemma upsertFact_neg (t : List FactRow) (row : FactRow)
    (h : ¬t.any (fun x =>
      x.customerId = row.customerId ∧ x.transactionId = row.transactionId) = true) :
    upsertFact t row = t ++ [row] := by
  unfold upsertFact
  rw [if_neg h]

/-- Upserting the same row twice is the same as upserting it once. -/
lemma upsertFact_idem (t : List FactRow) (row : FactRow) :
    upsertFact (upsertFact t row) row = upsertFact t row := by
  by_cases hany : t.any (fun x =>
      x.customerId = row.customerId ∧ x.transactionId = row.transactionId) = true
  · rcases List.any_eq_true.mp hany with ⟨x₀, hx₀mem, hx₀p⟩
    have hx₀ : x₀.customerId = row.customerId ∧ x₀.transactionId = row.transactionId :=
      of_decide_eq_true hx₀p
    have hany2 : (upsertFact t row).any (fun x =>
        x.customerId = row.customerId ∧ x.transactionId = row.transactionId) = true := by
      rw [upsertFact_pos t row hany]
      refine List.any_eq_true.mpr ⟨row, ?_, by simp⟩
      refine List.mem_map.mpr ⟨x₀, hx₀mem, ?_⟩
      rw [if_pos hx₀]
    rw [upsertFact_pos _ row hany2, upsertFact_pos t row hany, List.map_map]
    apply List.map_congr_left
    intro x _
    by_cases hx : x.customerId = row.customerId ∧ x.transactionId = row.transactionId
    · simp [hx]
    · simp only [Function.comp_apply, if_neg hx]
  · have hany2 : (upsertFact t row).any (fun x =>
        x.customerId = row.customerId ∧ x.transactionId = row.transactionId) = true := by
      rw [upsertFact_neg t row hany]
      exact List.any_eq_true.mpr ⟨row, List.mem_append_right t (List.mem_cons_self row []), by simp⟩
    rw [upsertFact_pos _ row hany2, upsertFact_neg t row hany, List.map_append]
    have hmapt : t.map (fun x =>
        if x.customerId = row.customerId ∧ x.transactionId = row.transactionId
        then row else x) = t.map id := by
      apply List.map_congr_left
      intro x hx
      have hxne : ¬(x.customerId = row.customerId ∧ x.transactionId = row.transactionId) := by
        intro hcon
        exact hany (List.any_eq_true.mpr ⟨x, hx, by simpa using hcon⟩)
      simp [hxne]
    rw [hmapt, List.map_id]
    simp

/-- C8: the upsert of `insert_into_transactions_table` is an idempotent
last-write-wins overwrite: after writing an accepted record into a table
satisfying the primary-key invariant at its key (at most one stored row,
covering both the fresh and the re-submission case), the table holds exactly
one row for `(customerId, transactionId)` — the incoming values — and
writing the identical record a second time (same run or a later run applies
the same upsert again) changes nothing. -/
theorem transactions_upsert_idempotent_overwrite (t : List FactRow) (r : TransactionRecord)
    (hwf : (rowsWithKey t r.customerId r.transactionId).length ≤ 1) :
    rowsWithKey (insert_into_transactions_table t [r]) r.customerId r.transactionId = [toFact r] ∧
    insert_into_transactions_table (insert_into_transactions_table t [r]) [r] =
      insert_into_transactions_table t [r] := by
  have hfold : ∀ s : List FactRow, insert_into_transactions_table s [r] = upsertFact s (toFact r) := by
    intro s
    rfl
  simp only [hfold]
  exact ⟨rowsWithKey_upsertFact_self t (toFact r) hwf, upsertFact_idem t (toFact r)⟩

/-- C8 witness: re-submitting key `(7, 5)` with new values overwrites the
stored row, and the double write equals the single write. -/
theorem transactions_upsert_idempotent_overwrite_witness :
    (rowsWithKey [toFact recDupFirst] recDupSecond.customerId recDupSecond.transactionId).length ≤ 1 ∧
    (rowsWithKey (insert_into_transactions_table [toFact recDupFirst] [recDupSecond])
        recDupSecond.customerId recDupSecond.transactionId = [toFact recDupSecond] ∧
      insert_into_transactions_table
          (insert_into_transactions_table [toFact recDupFirst] [recDupSecond]) [recDupSecond] =
        insert_into_transactions_table [toFact recDupFirst] [recDupSecond]) :=
  ⟨by decide,
    transactions_upsert_idempotent_overwrite [toFact recDupFirst] recDupSecond (by decide)⟩

/-- Folding the last-with-key accumulator from any start equals taking the
last matching row of the list when there is one, else the start. -/
lemma foldl_lastWithKey_general (c i : Nat) : ∀ (rest : List FactRow) (a : Option FactRow),
    rest.foldl (fun acc x =>
        if x.customerId = c ∧ x.transactionId = i then some x else acc) a =
      match lastWithKey rest c i with
      | some q => some q
      | none => a := by
  intro rest
  induction rest with
  | nil =>
    intro a
    rfl
  | cons x rest ih =>
    intro a
    have hx : lastWithKey (x :: rest) c i =
        match lastWithKey rest c i with
        | some q => some q
        | none => (if x.customerId = c ∧ x.transactionId = i then some x else none) := by
      unfold lastWithKey
      rw [List.foldl_cons, ih]
      rfl
    rw [List.foldl_cons, ih, hx]
    by_cases hcond : x.customerId = c ∧ x.transactionId = i
    · cases hrest : lastWithKey rest c i <;> simp [hcond]
    · cases hrest : lastWithKey rest c i <;> simp [hcond]

/-- Applying a batch of rows by sequential upserts leaves, at each key, the
last row of the batch with that key, or the prior table slice when the batch
has none. -/
lemma rowsWithKey_foldl_upsertFact (c i : Nat) : ∀ (rows : List FactRow) (t : List FactRow),
    (rowsWithKey t c i).length ≤ 1 →
    rowsWithKey (rows.foldl upsertFact t) c i =
      match lastWithKey rows c i with
      | some q => [q]
      | none => rowsWithKey t c i := by
  intro rows
  induction rows with
  | nil =>
    intro t _
    rfl
  | cons row rest ih =>
    intro t hwf
    rw [List.foldl_cons]
    have hlast : lastWithKey (row :: rest) c i =
        match lastWithKey rest c i with
        | some q => some q
        | none => (if row.customerId = c ∧ row.transactionId = i then some row else none) := by
      unfold lastWithKey
      rw [List.foldl_cons, foldl_lastWithKey_general c i rest]
      rfl
    by_cases hkey : row.customerId = c ∧ row.transactionId = i
    · obtain ⟨hc, hi⟩ := hkey
      subst hc
      subst hi
      have hself : rowsWithKey (upsertFact t row) row.customerId row.transactionId = [row] :=
        rowsWithKey_upsertFact_self t row hwf
      have hwf' : (rowsWithKey (upsertFact t row) row.customerId row.transactionId).length ≤ 1 := by
        rw [hself]
        simp
      rw [ih (upsertFact t row) hwf', hself, hlast]
      cases hrest : lastWithKey rest row.customerId row.transactionId <;> simp
    · have hother : rowsWithKey (upsertFact t row) c i = rowsWithKey t c i :=
        rowsWithKey_upsertFact_other t row c i hkey
      have hwf' : (rowsWithKey (upsertFact t row) c i).length ≤ 1 := by
        rw [hother]
        exact hwf
      rw [ih (upsertFact t row) hwf', hother, hlast]
      cases hrest : lastWithKey rest c i <;> simp [hkey]

/-- C10: when the batch handed to `insert_into_transactions_table` holds
several rows with the same `(customerId, transactionId)` key, the sequential
`execute_batch` order makes the last such row in batch order win: afterwards
the table's slice at that key is exactly that row (given the primary-key
invariant beforehand), and a key absent from the batch keeps its prior
slice. -/
theorem transactions_batch_last_row_wins (t : List FactRow)
    (batch : List TransactionRecord) (c i : Nat)
    (hwf : (rowsWithKey t c i).length ≤ 1) :
    rowsWithKey (insert_into_transactions_table t batch) c i =
      match lastWithKey (batch.map toFact) c i with
      | some q => [q]
      | none => rowsWithKey t c i :=
  rowsWithKey_foldl_upsertFact c i (batch.map toFact) t hwf

/-- C10 witness: a batch with two rows for key `(7, 5)` leaves exactly the
second row's values. -/
theorem transactions_batch_last_row_wins_witness :
    (rowsWithKey [] 7 5).length ≤ 1 ∧
    rowsWithKey (insert_into_transactions_table [] [recDupFirst, recDupSecond]) 7 5 =
      [toFact recDupSecond] := by
  refine ⟨by decide, ?_⟩
  rw [transactions_batch_last_row_wins [] [recDupFirst, recDupSecond] 7 5 (by decide)]
  decide

/-- A customer-preserving row transformation commutes with the customer
lookup. -/
lemma find?_customer_map (f : CustomerRow → CustomerRow)
    (hf : ∀ x, (f x).customerId = x.customerId) (c : Nat) :
    ∀ t : List CustomerRow, (t.map f).find? (fun x => x.customerId = c) =
      (t.find? (fun x => x.customerId = c)).map f := by
  intro t
  induction t with
  | nil => rfl
  | cons x xs ih =>
    rw [List.map_cons]
    by_cases hx : x.customerId = c
    · rw [List.find?_cons_of_pos _ (by simp [hf x, hx]),
        List.find?_cons_of_pos _ (by simp [hx])]
      rfl
    · rw [List.find?_cons_of_neg _ (by simp [hf x, hx]),
        List.find?_cons_of_neg _ (by simp [hx]), ih]

/-- Effect of one rollup upsert on the stored date of customer `c`: the row's
customer is merged with `GREATEST`, every other customer is untouched. -/
lemma lookupCustomerDate_upsertCustomer (t : List CustomerRow) (row : CustomerRow) (c : Nat) :
    lookupCustomerDate (upsertCustomer t row) c =
      if row.customerId = c then stepMax (lookupCustomerDate t c) row.transactionDate
      else lookupCustomerDate t c := by
  unfold upsertCustomer
  by_cases hany : t.any (fun x => x.customerId = row.customerId) = true
  · rw [if_pos hany]
    have hf : ∀ x : CustomerRow,
        ((fun x : CustomerRow =>
          if x.customerId = row.customerId then
            (⟨x.customerId, row.customerName, Nat.max row.transactionDate x.transactionDate⟩ :
              CustomerRow)
          else x) x).customerId = x.customerId := by
      intro x
      by_cases hx : x.customerId = row.customerId
      · simp [hx]
      · simp [hx]
    unfold lookupCustomerDate
    rw [find?_customer_map _ hf c t]
    by_cases hrc : row.customerId = c
    · rcases List.any_eq_true.mp hany with ⟨x₀, hx₀mem, hx₀p⟩
      have hsome : (t.find? (fun x => x.customerId = c)).isSome = true := by
        rw [List.find?_isSome]
        exact ⟨x₀, hx₀mem, by simp [of_decide_eq_true hx₀p, hrc]⟩
      rcases Option.isSome_iff_exists.mp hsome with ⟨y, hy⟩
      have hyc : y.customerId = c := by simpa using List.find?_some hy
      rw [hy, if_pos hrc]
      have hfy : (if y.customerId = row.customerId then
          (⟨y.customerId, row.customerName, Nat.max row.transactionDate y.transactionDate⟩ :
            CustomerRow)
          else y) =
          ⟨y.customerId, row.customerName, Nat.max row.transactionDate y.transactionDate⟩ := by
        rw [if_pos (by rw [hyc, hrc])]
      simp [hfy, stepMax, omax]
    · rw [if_neg hrc]
      cases hfind : t.find? (fun x => x.customerId = c) with
      | none => rfl
      | some y =>
        have hyc : y.customerId = c := by simpa using List.find?_some hfind
        have hyne : ¬y.customerId = row.customerId := by
          rw [hyc]
          intro hcon
          exact hrc hcon.symm
        simp [hyne]
  · rw [if_neg hany]
    unfold lookupCustomerDate
    rw [List.find?_append]
    by_cases hrc : row.customerId = c
    · have hnone : t.find? (fun x => x.customerId = c) = none := by
        rw [List.find?_eq_none]
        intro x hx hpx
        exact hany (List.any_eq_true.mpr ⟨x, hx, by simp [of_decide_eq_true hpx, hrc]⟩)
      rw [hnone, if_pos hrc]
      have hrow : List.find? (fun x : CustomerRow => x.customerId = c) [row] = some row :=
        List.find?_cons_of_pos _ (by simp [hrc])
      rw [hnone] at *
      simp [hrow, stepMax, omax]
    · have hrow : List.find? (fun x : CustomerRow => x.customerId = c) [row] = none := by
        rw [List.find?_eq_none]
        intro x hx hpx
        rw [List.mem_singleton] at hx
        subst hx
        exact hrc (by simpa using hpx)
      rw [hrow, if_neg hrc]
      cases t.find? (fun x => x.customerId = c) <;> rfl

/-- Effect of a whole rollup batch on the stored date of customer `c`: the
fold of `GREATEST` merges over the batch rows belonging to `c`, seeded with
the stored value. -/
lemma lookupCustomerDate_foldl (c : Nat) : ∀ (rows : List CustomerRow) (t : List CustomerRow),
    lookupCustomerDate (rows.foldl upsertCustomer t) c =
      ((rows.filter (fun x => x.customerId = c)).map (fun x => x.transactionDate)).foldl
        stepMax (lookupCustomerDate t c) := by
  intro rows
  induction rows with
  | nil =>
    intro t
    rfl
  | cons row rest ih =>
    intro t
    rw [List.foldl_cons, ih (upsertCustomer t row), lookupCustomerDate_upsertCustomer t row c]
    by_cases hrc : row.customerId = c
    · rw [if_pos hrc, List.filter_cons_of_pos (by simp [hrc]), List.map_cons, List.foldl_cons]
    · rw [if_neg hrc, List.filter_cons_of_neg (by simp [hrc])]

/-- Folding `GREATEST` merges over any date list never lowers the stored
value. -/
lemma foldl_stepMax_mono : ∀ (ds : List Nat) (v : Nat),
    ∃ v', List.foldl stepMax (some v) ds = some v' ∧ v ≤ v' := by
  intro ds
  induction ds with
  | nil =>
    intro v
    exact ⟨v, rfl, Nat.le_refl v⟩
  | cons d ds ih =>
    intro v
    rcases ih (Nat.max d v) with ⟨v', hv', hle⟩
    refine ⟨v', ?_, Nat.le_trans (Nat.le_max_right d v) hle⟩
    rw [List.foldl_cons]
    exact hv'

/-- `insert_into_customer_table` never lowers a customer's stored date. -/
lemma insert_customer_mono (t : List CustomerRow) (batch : List TransactionRecord) (c v : Nat)
    (h : lookupCustomerDate t c = some v) :
    ∃ v', lookupCustomerDate (insert_into_customer_table t batch) c = some v' ∧ v ≤ v' := by
  unfold insert_into_customer_table
  rw [lookupCustomerDate_foldl c (batch.map toCustomerRow) t, h]
  exact foldl_stepMax_mono _ v

/-- After a run, the customer table is either unchanged or the result of the
rollup insert on the accepted rows — whatever the four outcomes were. -/
lemma runPipeline_customers (db : DB) (env : RunEnv) (batch : List TransactionRecord) :
    (runPipeline db env batch).1.customers = db.customers ∨
    (runPipeline db env batch).1.customers =
      insert_into_customer_table db.customers (data_quality_checks batch).1 := by
  cases hs : env.schemaOutcome <;> cases ht : env.txOutcome <;>
    cases hc : env.custOutcome <;> cases he : env.errOutcome <;>
      simp [runPipeline, applyOp, hs, ht, hc, he]

/-- C5: rollup monotonicity — if customer `c` has stored rollup date `v`
before a run, then after the run (whatever the batch and the outcome of
every database operation) the stored date is some `v' ≥ v`; in particular a
load with an older accepted date never reduces it. -/
theorem rollup_date_monotone (db : DB) (env : RunEnv) (batch : List TransactionRecord)
    (c v : Nat) (h : lookupCustomerDate db.customers c = some v) :
    ∃ v', lookupCustomerDate (runPipeline db env batch).1.customers c = some v' ∧ v ≤ v' := by
  rcases runPipeline_customers db env batch with hcase | hcase
  · exact ⟨v, by rw [hcase, h], Nat.le_refl v⟩
  · rw [hcase]
    exact insert_customer_mono db.customers (data_quality_checks batch).1 c v h

/-- C5 witness: customer 42 holds date 2024-01-01; a run loading an accepted
transaction dated 2023-06-01 leaves the rollup at some date ≥ 2024-01-01. -/
theorem rollup_date_monotone_witness :
    lookupCustomerDate dbWithRollup.customers 42 = some 20240101 ∧
    ∃ v', lookupCustomerDate (runPipeline dbWithRollup envAllOk [recOldDate]).1.customers 42 =
        some v' ∧ 20240101 ≤ v' :=
  ⟨by decide, rollup_date_monotone dbWithRollup envAllOk [recOldDate] 42 20240101 (by decide)⟩

/-- The rollup merge step is right-commutative: merging two incoming dates in
either order gives the same stored value. -/
lemma stepMax_right_comm (z : Option Nat) (x y : Nat) :
    stepMax (stepMax z x) y = stepMax (stepMax z y) x := by
  cases z <;> simp [stepMax, omax, Nat.max_comm, Nat.max_left_comm]

/-- C9 counterexample: an accepted batch with two rows for customer 1 under
different names (`Alice` and `Bob`).  Both orders pass validation unchanged
and are permutations of each other, yet `insert_into_customer_table`
produces different `CustomerRollup` rows — the on-conflict clause overwrites
`customerName` with the incoming value, so the last row's name wins and the
produced row is not permutation-invariant. -/
theorem rollup_row_depends_on_order :
    data_quality_checks [recNameA, recNameB] = ([recNameA, recNameB], []) ∧
    List.Perm [recNameB, recNameA] [recNameA, recNameB] ∧
    insert_into_customer_table [] [recNameA, recNameB] ≠
      insert_into_customer_table [] [recNameB, recNameA] :=
  ⟨by decide, List.Perm.swap recNameA recNameB [], by decide⟩

/-- C9 (amended): within an accepted batch, the `transactionDate` component
of the rollup produced by `insert_into_customer_table` is the same for every
permutation of the rows — `GREATEST` is commutative and associative — even
though the `customerName` component is last-write-wins and may depend on the
order. -/
theorem rollup_date_order_independent (t : List CustomerRow)
    (rows rows' : List TransactionRecord) (hperm : List.Perm rows rows') (c : Nat) :
    lookupCustomerDate (insert_into_customer_table t rows) c =
      lookupCustomerDate (insert_into_customer_table t rows') c := by
  unfold insert_into_customer_table
  rw [lookupCustomerDate_foldl c (rows.map toCustomerRow) t,
    lookupCustomerDate_foldl c (rows'.map toCustomerRow) t]
  have hperm2 : List.Perm
      (((rows.map toCustomerRow).filter (fun x => x.customerId = c)).map
        (fun x => x.transactionDate))
      (((rows'.map toCustomerRow).filter (fun x => x.customerId = c)).map
        (fun x => x.transactionDate)) :=
    ((hperm.map toCustomerRow).filter _).map _
  exact List.Perm.foldl_eq' hperm2 (fun x _ y _ z => stepMax_right_comm z x y)
    (lookupCustomerDate t c)

/-- C9 witness: the two orders of the `Alice`/`Bob` batch yield the same
stored rollup date for customer 1. -/
theorem rollup_date_order_independent_witness :
    List.Perm [recNameA, recNameB] [recNameB, recNameA] ∧
    lookupCustomerDate (insert_into_customer_table [] [recNameA, recNameB]) 1 =
      lookupCustomerDate (insert_into_customer_table [] [recNameB, recNameA]) 1 :=
  ⟨List.Perm.swap recNameB recNameA [],
    rollup_date_order_independent [] [recNameA, recNameB] [recNameB, recNameA]
      (List.Perm.swap recNameB recNameA []) 1⟩

/-- C2: the spec requires a failed sink write to roll back the whole run, but
every sink wraps its work in `except: print`, and `main` still calls
`conn.commit()`.  When the transactions sink fails client-side (its exception
is raised before any statement reaches the server, e.g. a type-coercion
failure, so the open transaction is not aborted), the other two sinks'
writes are committed: starting from an empty store, the run ends with the
rollup row and the error-log row durably visible and the transactions table
empty — a partial commit, not the state before the run. -/
theorem sink_failure_commits_partial_state :
    envTxClientFail.txOutcome = OpOutcome.clientFail ∧
    (runPipeline emptyDB envTxClientFail [recValid, recBadCurrency]).1 ≠ emptyDB ∧
    (runPipeline emptyDB envTxClientFail [recValid, recBadCurrency]).1.transactions = [] ∧
    (runPipeline emptyDB envTxClientFail [recValid, recBadCurrency]).1.customers =
      [⟨1, "Bob", 20231121⟩] ∧
    (runPipeline emptyDB envTxClientFail [recValid, recBadCurrency]).1.errorLog =
      [⟨3, 4, "memo"⟩] := by
  decide

/-- C3: the spec says a schema-initialization failure aborts the run before
any validation or write happens, but `create_tables` catches the error and
prints it, so `main` continues: validation runs and all three sink writes
are still attempted (each statement fails against the aborted transaction
and is swallowed).  The committed state is indeed untouched — because the
aborted transaction's `COMMIT` keeps nothing — yet the run demonstrably does
not abort: the attempt trace shows the three sinks invoked with the
validated row counts. -/
theorem schema_failure_run_continues :
    envSchemaFail.schemaOutcome = OpOutcome.serverFail ∧
    (runPipeline emptyDB envSchemaFail [recValid, recBadCurrency]).1 = emptyDB ∧
    (runPipeline emptyDB envSchemaFail [recValid, recBadCurrency]).2 =
      [Event.schemaAttempt, Event.txAttempt 1, Event.custAttempt 1, Event.errAttempt 1] := by
  decide

end Snoop
